import Mathlib

/-!
Shallow embedding of `qc_portal.py` (model registry, findings record store,
Streamlit memoization caches, the report / import / history handlers), with
theorems settling the frozen claims about the spec.

Conventions of the embedding:
* Python `str.strip()` is modelled by `pystrip` (`String.trim`); the strings
  exercised by the claims contain only ASCII whitespace, where the two agree.
* The SQLite `models` table has a fixed four-column schema, so it is a list of
  `ModelRow` (the `model_no TEXT PRIMARY KEY` uniqueness is carried as a
  `Nodup` hypothesis where a theorem needs it).
* The `findings` table is written through dynamic dict payloads
  (`insert_finding(payload)` builds its column list from the dict), so a
  finding row is its autoincrement id plus an association list from column
  name to SQL value (`Val`); a missing key plays the role of SQL NULL.
* `st.cache_data` memoization of `list_models` and `load_findings` is state:
  `modelsCache` caches the one nullary query, `findingsCache` maps the
  argument pair of `load_findings` to a cached result.  `f.clear()` in the
  source becomes resetting that component.
* Wall-clock reads (`datetime.utcnow()`), the blob store (`save_image`,
  image files) and `pd.to_datetime` are inputs: handlers take the timestamp
  string, an image-save function `blob` returning `Except`, and a date
  parser `parse : String → Option String` as parameters.  Webhooks and the
  filesystem moves are outside the store and are not modelled.
-/

namespace QCPortal

/-- The whitespace characters Python `str.strip()` removes (restricted to
ASCII; the strings this program handles contain no exotic whitespace). -/
def isPySpace (c : Char) : Bool :=
  c == ' ' || c == '\t' || c == '\n' || c == '\x0d' || c == '\x0b' || c == '\x0c'

/-- Drop leading whitespace from a character list. -/
def dropLeadingSpace : List Char → List Char
  | [] => []
  | c :: cs => if isPySpace c then dropLeadingSpace cs else c :: cs

/-- Model of Python `str.strip()` with no arguments: drop whitespace from
both ends. -/
def pystrip (s : String) : String :=
  String.mk ((dropLeadingSpace (dropLeadingSpace s.data).reverse).reverse)

/-- Model of Python `str.lower()` (ASCII-adequate). -/
def pyLower (s : String) : String := String.mk (s.data.map Char.toLower)

/-- A SQL value as stored by the portal: TEXT or INTEGER. -/
inductive Val where
  | s : String → Val
  | i : Int → Val
deriving DecidableEq, Repr

/-- A dict payload / dynamic row: column name to value, first binding wins. -/
abbrev Payload := List (String × Val)

/-- First value bound to column `k`, `none` playing the role of SQL NULL. -/
def getCol (p : Payload) (k : String) : Option Val :=
  (p.find? (fun kv => kv.1 = k)).map (fun kv => kv.2)

/-- Dict assignment `payload[k] = v` / SQL `UPDATE ... SET k = v`:
overwrite every binding of `k`, appending when the key is absent. -/
def setCol (p : Payload) (k : String) (v : Val) : Payload :=
  if p.any (fun kv => kv.1 = k) then
    p.map (fun kv => if kv.1 = k then (k, v) else kv)
  else p ++ [(k, v)]

/-- A row of the `models` table (`model_no` is the primary key). -/
structure ModelRow where
  model_no : String
  name : String
  customer : String
  bucket : String
deriving DecidableEq, Repr

/-- A row of the `findings` table: autoincrement id plus the inserted
columns (absent column = NULL). -/
structure Finding where
  id : Nat
  cols : Payload
deriving DecidableEq, Repr

/-- The SQLite database: both tables plus the next AUTOINCREMENT id. -/
structure DB where
  models : List ModelRow
  findings : List Finding
  nextId : Nat
deriving DecidableEq, Repr

/-- Process state: the database plus the two `st.cache_data` memo caches
(`list_models` and `load_findings`, the latter keyed by its arguments). -/
structure AppState where
  db : DB
  modelsCache : Option (List ModelRow)
  findingsCache : List ((String × Option String) × List Finding)
deriving DecidableEq, Repr

/-- `SELECT ... FROM models WHERE model_no = k` (first match). -/
def getModel (db : List ModelRow) (k : String) : Option ModelRow :=
  db.find? (fun r => r.model_no = k)

/-- `INSERT INTO models(...) VALUES(...) ON CONFLICT(model_no) DO UPDATE SET
name=excluded.name, customer=excluded.customer, bucket=excluded.bucket`. -/
def upsertRow (db : List ModelRow) (r : ModelRow) : List ModelRow :=
  if db.any (fun x => x.model_no = r.model_no) then
    db.map (fun x => if x.model_no = r.model_no then r else x)
  else db ++ [r]

/-- `a <= b` on strings as SQLite compares TEXT values. -/
def strLe (a b : String) : Bool := a == b || decide (a < b)

/-- Insert a model row into a list kept ascending by `model_no`
(`ORDER BY model_no`). -/
def insertByNoAsc (r : ModelRow) : List ModelRow → List ModelRow
  | [] => [r]
  | x :: xs => if strLe r.model_no x.model_no then r :: x :: xs else x :: insertByNoAsc r xs

/-- Sort model rows ascending by `model_no`. -/
def sortByNoAsc (l : List ModelRow) : List ModelRow := l.foldr insertByNoAsc []

/-- `list_models()` recomputed from the store: `SELECT model_no,
COALESCE(name,''), COALESCE(customer,''), COALESCE(bucket,'') FROM models
ORDER BY model_no` (fields are never NULL in this embedding). -/
def list_models_q (db : DB) : List ModelRow := sortByNoAsc db.models

/-- `list_models()` through its `st.cache_data` memo cache. -/
def list_models_cached (st : AppState) : List ModelRow × AppState :=
  match st.modelsCache with
  | some r => (r, st)
  | none =>
    let r := list_models_q st.db
    (r, { st with modelsCache := some r })

/-- Insert a finding into a list kept descending by `id` (`ORDER BY id DESC`). -/
def insertByIdDesc (f : Finding) : List Finding → List Finding
  | [] => [f]
  | g :: gs => if g.id ≤ f.id then f :: g :: gs else g :: insertByIdDesc f gs

/-- Sort findings descending by `id`. -/
def sortByIdDesc (l : List Finding) : List Finding := l.foldr insertByIdDesc []

/-- The WHERE clause of `load_findings`: `model_no = ?` and, when a day
window is active, `created_at >= ?` (SQLite TEXT comparison; a NULL or
non-text `created_at` never satisfies it). -/
def lf_pred (model_no : String) (since : Option String) (f : Finding) : Bool :=
  (getCol f.cols "model_no" = some (Val.s model_no)) &&
    (match since with
     | none => true
     | some s0 =>
       match getCol f.cols "created_at" with
       | some (Val.s t) => strLe s0 t
       | _ => false)

/-- `load_findings(model_no, days)` recomputed from the store.  `since` is
the precomputed cutoff `(utcnow() - timedelta(days)).isoformat()`, `none`
when `days` is falsy (the `if days:` branch is skipped). -/
def load_findings (model_no : String) (since : Option String) (db : DB) : List Finding :=
  sortByIdDesc (db.findings.filter (lf_pred model_no since))

/-- `load_findings` through its `st.cache_data` memo cache, keyed by the
argument pair. -/
def load_findings_cached (model_no : String) (since : Option String)
    (st : AppState) : List Finding × AppState :=
  match st.findingsCache.find? (fun e => e.1 = (model_no, since)) with
  | some e => (e.2, st)
  | none =>
    let r := load_findings model_no since st.db
    (r, { st with findingsCache := ((model_no, since), r) :: st.findingsCache })

/-- `upsert_model`: strips all four arguments, upserts by primary key with
full replacement of the three attributes, then `list_models.clear()`. -/
def upsert_model (st : AppState) (model_no name customer bucket : String) : AppState :=
  { st with
    db := { st.db with
      models := upsertRow st.db.models
        ⟨pystrip model_no, pystrip name, pystrip customer, pystrip bucket⟩ }
    modelsCache := none }

/-- `update_model_meta`: `UPDATE models SET name=?, customer=?, bucket=?
WHERE model_no=?`, then `list_models.clear()`. -/
def update_model_meta (st : AppState) (model_no name customer bucket : String) : AppState :=
  { st with
    db := { st.db with
      models := st.db.models.map (fun r =>
        if r.model_no = pystrip model_no then
          { r with name := pystrip name, customer := pystrip customer, bucket := pystrip bucket }
        else r) }
    modelsCache := none }

/-- The error strings `rename_model` can return. -/
inductive RenameErr where
  | invalidNumbers
  | notFound (m : String)
deriving DecidableEq, Repr

/-- `rename_model(old_no, new_no)`: rejects blank or equal numbers and a
missing source model; otherwise upserts `new_no` with the old attributes
(silently overwriting any existing row for `new_no`), repoints every
finding, deletes the old row and clears the model-list cache.  The
`criteria` table does not exist (its UPDATE raises and is swallowed) and
the image-directory move is filesystem-only; neither is modelled. -/
def rename_model (st : AppState) (old_no new_no : String) : AppState × Option RenameErr :=
  let o := pystrip old_no
  let n := pystrip new_no
  if o = "" ∨ n = "" ∨ o = n then (st, some RenameErr.invalidNumbers)
  else
    match getModel st.db.models o with
    | none => (st, some (RenameErr.notFound o))
    | some r =>
      let models1 := upsertRow st.db.models ⟨n, r.name, r.customer, r.bucket⟩
      let findings1 := st.db.findings.map (fun f =>
        if getCol f.cols "model_no" = some (Val.s o) then
          { f with cols := setCol f.cols "model_no" (Val.s n) }
        else f)
      let models2 := models1.filter (fun x => x.model_no ≠ o)
      ({ st with
          db := { st.db with models := models2, findings := findings1 }
          modelsCache := none },
       none)

/-- `delete_model_all(model_no, delete_images, delete_findings,
delete_criteria)`: optionally deletes the dependent findings, always
deletes the model row (no strip, no dependency check), then
`list_models.clear()`.  Image-file deletion and the nonexistent `criteria`
table are not modelled. -/
def delete_model_all (st : AppState) (model_no : String)
    (_delete_images delete_findings _delete_criteria : Bool) : AppState :=
  let f1 := if delete_findings then
      st.db.findings.filter (fun f => getCol f.cols "model_no" ≠ some (Val.s model_no))
    else st.db.findings
  let m1 := st.db.models.filter (fun r => r.model_no ≠ model_no)
  { st with db := { st.db with models := m1, findings := f1 }, modelsCache := none }

/-- `insert_finding(payload)`: inserts the dict as a new row under the next
autoincrement id.  It clears no cache. -/
def insert_finding (st : AppState) (payload : Payload) : AppState :=
  { st with
    db := { st.db with
      findings := st.db.findings ++ [⟨st.db.nextId, payload⟩]
      nextId := st.db.nextId + 1 } }

/-- `update_finding(fid, payload)`: no-op on an empty payload, else
`UPDATE findings SET k=v, ... WHERE id=fid`.  It clears no cache. -/
def update_finding (st : AppState) (fid : Nat) (payload : Payload) : AppState :=
  if payload = [] then st
  else
    { st with
      db := { st.db with
        findings := st.db.findings.map (fun f =>
          if f.id = fid then
            { f with cols := payload.foldl (fun p kv => setCol p kv.1 kv.2) f.cols }
          else f) } }

/-- `delete_finding(fid)`: returns unchanged when the id is absent, else
deletes the row.  It clears no cache (image files are not modelled). -/
def delete_finding (st : AppState) (fid : Nat) : AppState :=
  match st.db.findings.find? (fun f => f.id = fid) with
  | none => st
  | some _ =>
    { st with
      db := { st.db with findings := st.db.findings.filter (fun f => f.id ≠ fid) } }

/-- Render a list of strings as `json.dumps` renders a JSON string array
(paths produced by `save_image` contain nothing needing escapes). -/
def jsonStrList (l : List String) : String :=
  "[" ++ String.intercalate ", " (l.map (fun s => "\"" ++ s ++ "\"")) ++ "]"

/-- `json.dumps(\x7b"images": saved_rel\x7d)`. -/
def jsonImages (l : List String) : String :=
  "\x7b\"images\": " ++ jsonStrList l ++ "\x7d"

/-- The outcomes of the Report-New-Finding save button: the two `st.error`
guards, and the uncaught exception when `save_image` fails. -/
inductive RfErr where
  | noModel
  | noPhoto
  | imageSaveFailed
deriving DecidableEq, Repr

/-- The widget values feeding the Report-New-Finding save handler.  `Img`
abstracts an uploaded file; `defect_group` / `defect_item` come from the
selected category (`nonconformity_category` is `defect_item`). -/
structure RfInput (Img : Type) where
  rep_model : String
  images : List Img
  station : String
  line : String
  shift : String
  defect_group : String
  defect_item : String
  description : String
  defective_qty : Int
  inspection_qty : Int
  lot_qty : Int
  stock_or_wip : String
  discovery_dept : String
  source : String
  outflow_stage : String
  mo_po : String
  reporter : String

/-- The `rf_save_btn` handler.  Guards: blank model number, then no photo
(state untouched, `st.error` shown).  Otherwise it upserts the model with
the default empty attributes, saves each image through `blob` (`save_image`;
a failure raises out of the handler after the upsert but before the row
insert), inserts the finding payload, and finally `load_findings.clear()`.
Webhook posts are external and not modelled.  `now` is
`datetime.utcnow().isoformat()`. -/
def rf_save {Img : Type} (blob : Img → Except Unit String) (now : String)
    (inp : RfInput Img) (st : AppState) : AppState × Option RfErr :=
  if pystrip inp.rep_model = "" then (st, some RfErr.noModel)
  else if inp.images.isEmpty then (st, some RfErr.noPhoto)
  else
    let m := pystrip inp.rep_model
    let st1 := upsert_model st m "" "" ""
    match inp.images.mapM blob with
    | Except.error _ => (st1, some RfErr.imageSaveFailed)
    | Except.ok saved =>
      let payload : Payload :=
        [("created_at", Val.s now), ("model_no", Val.s m),
         ("station", Val.s inp.station), ("line", Val.s inp.line),
         ("shift", Val.s inp.shift),
         ("nonconformity_category", Val.s inp.defect_item),
         ("description", Val.s inp.description),
         ("defective_qty", Val.i inp.defective_qty),
         ("inspection_qty", Val.i inp.inspection_qty),
         ("lot_qty", Val.i inp.lot_qty),
         ("stock_or_wip", Val.s inp.stock_or_wip),
         ("discovery_dept", Val.s inp.discovery_dept),
         ("source", Val.s inp.source),
         ("outflow_stage", Val.s inp.outflow_stage),
         ("defect_group", Val.s inp.defect_group),
         ("defect_item", Val.s inp.defect_item),
         ("mo_po", Val.s inp.mo_po), ("reporter", Val.s inp.reporter),
         ("image_path", Val.s (saved.headD "")),
         ("extra", Val.s (jsonImages saved)),
         ("need_capa", Val.i 0), ("reply_closed", Val.i 0),
         ("results_closed", Val.i 0)]
      let st2 := insert_finding st1 payload
      ({ st2 with findingsCache := [] }, none)

/-- A spreadsheet cell; `none` is a pandas NaN. -/
abbrev Cell := Option String

/-- Python `str(cell)`: NaN prints as `"nan"`. -/
def cellStr (c : Cell) : String :=
  match c with
  | none => "nan"
  | some s => s

/-- A source row: column name to cell.  A lookup of a column absent from
the row is the `KeyError` path of the import loop. -/
abbrev Row := List (String × Cell)

/-- `row[col]`: `none` means the column is missing (`KeyError`). -/
def rowGet (row : Row) (col : String) : Option Cell :=
  (row.find? (fun kv => kv.1 = col)).map (fun kv => kv.2)

/-- The import-handler mapping after the required-field check has passed:
the three required source columns plus the optional mapping in its
dictionary order (`none` is the `"(skip)"` choice). -/
structure ImportCfg where
  modelCol : String
  catCol : String
  descCol : String
  optMap : List (String × Option String)

/-- The optional column mapped to canonical field `k`, if any. -/
def lookupOptCol (optMap : List (String × Option String)) (k : String) : Option String :=
  match (optMap.find? (fun kv => kv.1 = k)).map (fun kv => kv.2) with
  | some (some col) => some col
  | _ => none

/-- The quantity fields coerced with `int(v or 0)`. -/
def qtyKeys : List String := ["defective_qty", "inspection_qty", "lot_qty"]

/-- `int(v or 0)` on the string `v`, with the `except` fallback to 0. -/
def toQty (s : String) : Int :=
  if s = "" then 0 else ((pystrip s).toInt?).getD 0

/-- One step of the optional-field loop `payload[k] = v`: the mapped cell
is fetched (a missing column aborts the row via `KeyError`), NaN becomes
`""`, quantity fields are coerced to integers. -/
def optStep (row : Row) (acc : Option Payload) (kc : String × Option String) : Option Payload :=
  match acc with
  | none => none
  | some p =>
    match kc.2 with
    | none => some p
    | some col =>
      match rowGet row col with
      | none => none
      | some cell =>
        let v := match cell with
          | none => ""
          | some s => s
        let val := if kc.1 ∈ qtyKeys then Val.i (toQty v) else Val.s v
        some (setCol p kc.1 val)

/-- One iteration of the import commit loop.  Any `KeyError` is swallowed
by the blanket `except` and the row is skipped (`false`), but side effects
already performed — the model upsert — persist.  A blank model number hits
`continue` before any write.  The date normalization falls back to `now`
when the parse raises, and is later overwritten by the raw mapped value in
the optional-field loop. -/
def import_row (parse : String → Option String) (cfg : ImportCfg) (now : String)
    (st : AppState) (row : Row) : AppState × Bool :=
  match rowGet row cfg.modelCol with
  | none => (st, false)
  | some mcell =>
    let model_no := pystrip (cellStr mcell)
    if model_no = "" then (st, false)
    else
      let st1 := upsert_model st model_no "" "" ""
      let catt : Option Cell :=
        match lookupOptCol cfg.optMap "created_at" with
        | some col => rowGet row col
        | none => some (some "")
      match catt with
      | none => (st1, false)
      | some ccell =>
        let sraw := cellStr ccell
        let created0 :=
          if pystrip sraw ≠ "" ∧ pyLower sraw ≠ "nan" then (parse sraw).getD now
          else now
        match rowGet row cfg.catCol, rowGet row cfg.descCol with
        | some ccat, some cdesc =>
          let payload0 : Payload :=
            [("created_at", Val.s created0), ("model_no", Val.s model_no),
             ("nonconformity_category", Val.s (cellStr ccat)),
             ("description", Val.s (cellStr cdesc)),
             ("image_path", Val.s ""),
             ("extra", Val.s (jsonImages [])),
             ("need_capa", Val.i 0), ("reply_closed", Val.i 0),
             ("results_closed", Val.i 0)]
          match cfg.optMap.foldl (optStep row) (some payload0) with
          | none => (st1, false)
          | some payload => (insert_finding st1 payload, true)
        | _, _ => (st1, false)

/-- The import commit loop over all source rows, counting `inserted`. -/
def import_loop (parse : String → Option String) (cfg : ImportCfg) (now : String) :
    AppState → List Row → AppState × Nat
  | st, [] => (st, 0)
  | st, r :: rs =>
    let p := import_row parse cfg now st r
    let q := import_loop parse cfg now p.1 rs
    (q.1, (if p.2 then 1 else 0) + q.2)

/-- The body of the `btn_do_import` handler after the required-mapping
check: run the loop, then `load_findings.clear()`, reporting only the
inserted count (`Imported n row(s).`). -/
def import_commit (parse : String → Option String) (cfg : ImportCfg) (now : String)
    (st : AppState) (rows : List Row) : AppState × Nat :=
  let r := import_loop parse cfg now st rows
  ({ r.1 with findingsCache := [] }, r.2)

/-- The main-area history flow around the search box: `list_models()` is
read first (through its cache); on a non-blank query whose stripped model
number is not among the cached model numbers, the handler upserts a bare
model row; it then re-reads `list_models()` and `load_findings` for
display (warming both caches).  `since` is the cutoff derived from the
day-window selector (`none` for `All`). -/
def history_search (st : AppState) (query : String) (since : Option String) : AppState :=
  let r0 := list_models_cached st
  if query = "" then r0.2
  else
    let model_no := pystrip query
    let st2 :=
      if model_no ≠ "" ∧ ¬ (r0.1.any (fun r => r.model_no = model_no)) then
        upsert_model r0.2 model_no "" "" ""
      else r0.2
    let r3 := list_models_cached st2
    let r4 := load_findings_cached model_no since r3.2
    r4.2

/-! Helper lemmas about the embedded operations. -/

theorem pystrip_empty : pystrip "" = "" := by decide

theorem getModel_eq_none_iff (db : List ModelRow) (k : String) :
    getModel db k = none ↔ ∀ x ∈ db, x.model_no ≠ k := by
  simp [getModel, List.find?_eq_none]

theorem any_key_false (db : List ModelRow) (r : ModelRow)
    (h : ∀ x ∈ db, x.model_no ≠ r.model_no) :
    ¬(db.any (fun x => x.model_no = r.model_no) = true) := by
  intro hc
  rcases List.any_eq_true.mp hc with ⟨x, hx, hxe⟩
  exact h x hx (by simpa using hxe)

theorem upsertRow_absent (db : List ModelRow) (r : ModelRow)
    (h : ∀ x ∈ db, x.model_no ≠ r.model_no) :
    upsertRow db r = db ++ [r] := by
  unfold upsertRow
  rw [if_neg (any_key_false db r h)]

theorem find?_append_last (db : List ModelRow) (r : ModelRow)
    (h : ∀ x ∈ db, x.model_no ≠ r.model_no) :
    (db ++ [r]).find? (fun x => x.model_no = r.model_no) = some r := by
  induction db with
  | nil => simp
  | cons a as ih =>
    have ha := h a (List.mem_cons_self a as)
    rw [List.cons_append, List.find?_cons_of_neg _ (by simpa using ha)]
    exact ih (fun x hx => h x (List.mem_cons_of_mem a hx))

theorem find?_replaced (db : List ModelRow) (r : ModelRow)
    (h : ∃ x ∈ db, x.model_no = r.model_no) :
    (db.map (fun x => if x.model_no = r.model_no then r else x)).find?
      (fun x => x.model_no = r.model_no) = some r := by
  induction db with
  | nil => simp at h
  | cons a as ih =>
    by_cases ha : a.model_no = r.model_no
    · rw [List.map_cons, if_pos ha, List.find?_cons_of_pos _ (by simp)]
    · rw [List.map_cons, if_neg ha, List.find?_cons_of_neg _ (by simpa using ha)]
      apply ih
      rcases h with ⟨x, hx, hxe⟩
      rcases List.mem_cons.mp hx with rfl | hx2
      · exact absurd hxe ha
      · exact ⟨x, hx2, hxe⟩

theorem getModel_upsertRow_self (db : List ModelRow) (r : ModelRow) :
    getModel (upsertRow db r) r.model_no = some r := by
  unfold upsertRow getModel
  by_cases h : ∃ x ∈ db, x.model_no = r.model_no
  · rw [if_pos (by simpa [List.any_eq_true] using h)]
    exact find?_replaced db r h
  · push_neg at h
    rw [if_neg (any_key_false db r h)]
    exact find?_append_last db r h

theorem mem_upsertRow_of_ne {db : List ModelRow} {r x : ModelRow}
    (hx : x ∈ db) (hne : x.model_no ≠ r.model_no) : x ∈ upsertRow db r := by
  unfold upsertRow
  by_cases h : db.any (fun x => x.model_no = r.model_no) = true
  · rw [if_pos h]
    exact List.mem_map.mpr ⟨x, hx, if_neg hne⟩
  · rw [if_neg h]
    exact List.mem_append_left _ hx

theorem map_replace_eq_self (db : List ModelRow) (r : ModelRow)
    (h : ∀ x ∈ db, x.model_no ≠ r.model_no) :
    db.map (fun x => if x.model_no = r.model_no then r else x) = db := by
  induction db with
  | nil => rfl
  | cons a as ih =>
    rw [List.map_cons, if_neg (h a (List.mem_cons_self a as)),
      ih (fun x hx => h x (List.mem_cons_of_mem a hx))]

theorem filter_map_replace (db : List ModelRow) (r : ModelRow)
    (hnod : (db.map (fun x => x.model_no)).Nodup)
    (h : ∃ x ∈ db, x.model_no = r.model_no) :
    (db.map (fun x => if x.model_no = r.model_no then r else x)).filter
      (fun x => x.model_no = r.model_no) = [r] := by
  induction db with
  | nil => simp at h
  | cons a as ih =>
    rw [List.map_cons, List.nodup_cons] at hnod
    obtain ⟨hna, hnd⟩ := hnod
    by_cases ha : a.model_no = r.model_no
    · rw [List.map_cons, if_pos ha, List.filter_cons_of_pos (by simp)]
      have hnone : ∀ x ∈ as, x.model_no ≠ r.model_no := by
        intro x hx hxe
        apply hna
        have hax : a.model_no = x.model_no := by rw [ha, hxe]
        rw [hax]
        exact List.mem_map_of_mem (fun y => y.model_no) hx
      rw [map_replace_eq_self as r hnone,
        List.filter_eq_nil_iff.mpr (fun x hx => by simpa using hnone x hx)]
    · rw [List.map_cons, if_neg ha, List.filter_cons_of_neg (by simpa using ha)]
      apply ih hnd
      rcases h with ⟨x, hx, hxe⟩
      rcases List.mem_cons.mp hx with rfl | hx2
      · exact absurd hxe ha
      · exact ⟨x, hx2, hxe⟩

theorem filter_upsertRow_self (db : List ModelRow) (r : ModelRow)
    (hnod : (db.map (fun x => x.model_no)).Nodup) :
    (upsertRow db r).filter (fun x => x.model_no = r.model_no) = [r] := by
  unfold upsertRow
  by_cases h : ∃ x ∈ db, x.model_no = r.model_no
  · rw [if_pos (by simpa [List.any_eq_true] using h)]
    exact filter_map_replace db r hnod h
  · push_neg at h
    rw [if_neg (any_key_false db r h), List.filter_append,
      List.filter_eq_nil_iff.mpr (fun a ha => by simpa using h a ha)]
    simp

theorem upsertRow_idem (db : List ModelRow) (r : ModelRow) :
    upsertRow (upsertRow db r) r = upsertRow db r := by
  have hrepl : (fun x : ModelRow => if x.model_no = r.model_no then r else x) ∘
      (fun x : ModelRow => if x.model_no = r.model_no then r else x)
      = (fun x : ModelRow => if x.model_no = r.model_no then r else x) := by
    funext x
    by_cases hxe : x.model_no = r.model_no
    · simp [Function.comp, hxe]
    · simp [Function.comp, hxe]
  by_cases h : db.any (fun x => x.model_no = r.model_no) = true
  · have h1 : upsertRow db r = db.map (fun x => if x.model_no = r.model_no then r else x) := by
      unfold upsertRow
      rw [if_pos h]
    have hany2 : ((db.map (fun x => if x.model_no = r.model_no then r else x)).any
        (fun x => x.model_no = r.model_no)) = true := by
      rcases List.any_eq_true.mp h with ⟨x, hx, hxe⟩
      refine List.any_eq_true.mpr ⟨r, List.mem_map.mpr ⟨x, hx, if_pos (by simpa using hxe)⟩, by simp⟩
    rw [h1]
    unfold upsertRow
    rw [if_pos hany2, List.map_map, hrepl]
  · have hall : ∀ x ∈ db, x.model_no ≠ r.model_no := by
      intro x hx hxe
      exact absurd (List.any_eq_true.mpr ⟨x, hx, by simpa using hxe⟩) h
    have h1 : upsertRow db r = db ++ [r] := upsertRow_absent db r hall
    have hany2 : ((db ++ [r]).any (fun x => x.model_no = r.model_no)) = true :=
      List.any_eq_true.mpr ⟨r, by simp, by simp⟩
    rw [h1]
    unfold upsertRow
    rw [if_pos hany2, List.map_append, map_replace_eq_self db r hall]
    simp

theorem find?_filter_of_imp {α : Type} (l : List α) (p q : α → Bool)
    (h : ∀ x, p x = true → q x = true) :
    (l.filter q).find? p = l.find? p := by
  induction l with
  | nil => rfl
  | cons a as ih =>
    by_cases hq : q a = true
    · rw [List.filter_cons_of_pos hq, List.find?_cons, List.find?_cons]
      cases hp : p a
      · exact ih
      · rfl
    · have hp : p a = false := by
        cases hpa : p a
        · rfl
        · exact absurd (h a hpa) hq
      rw [List.filter_cons_of_neg (by simpa using hq), List.find?_cons, hp]
      exact ih

theorem mem_insertByIdDesc {x f : Finding} {l : List Finding} :
    x ∈ insertByIdDesc f l ↔ x = f ∨ x ∈ l := by
  induction l with
  | nil => simp [insertByIdDesc]
  | cons g gs ih =>
    rw [insertByIdDesc]
    by_cases hle : g.id ≤ f.id
    · rw [if_pos hle]
      simp [List.mem_cons]
    · rw [if_neg hle]
      simp only [List.mem_cons, ih]
      tauto

theorem mem_sortByIdDesc {x : Finding} {l : List Finding} :
    x ∈ sortByIdDesc l ↔ x ∈ l := by
  induction l with
  | nil => simp [sortByIdDesc]
  | cons g gs ih =>
    have hstep : sortByIdDesc (g :: gs) = insertByIdDesc g (sortByIdDesc gs) := rfl
    rw [hstep, mem_insertByIdDesc, ih, List.mem_cons]

theorem length_insertByIdDesc (f : Finding) (l : List Finding) :
    (insertByIdDesc f l).length = l.length + 1 := by
  induction l with
  | nil => rfl
  | cons g gs ih =>
    rw [insertByIdDesc]
    by_cases hle : g.id ≤ f.id
    · rw [if_pos hle]
      rfl
    · rw [if_neg hle]
      simp [ih]

theorem length_sortByIdDesc (l : List Finding) :
    (sortByIdDesc l).length = l.length := by
  induction l with
  | nil => rfl
  | cons g gs ih =>
    have hstep : sortByIdDesc (g :: gs) = insertByIdDesc g (sortByIdDesc gs) := rfl
    rw [hstep, length_insertByIdDesc, ih, List.length_cons]

theorem pairwise_insertByIdDesc (f : Finding) (l : List Finding)
    (h : l.Pairwise (fun a b => b.id ≤ a.id)) :
    (insertByIdDesc f l).Pairwise (fun a b => b.id ≤ a.id) := by
  induction l with
  | nil => simp [insertByIdDesc]
  | cons g gs ih =>
    rw [List.pairwise_cons] at h
    obtain ⟨hg, hgs⟩ := h
    rw [insertByIdDesc]
    by_cases hle : g.id ≤ f.id
    · rw [if_pos hle]
      refine List.Pairwise.cons ?_ (List.Pairwise.cons hg hgs)
      intro x hx
      rcases List.mem_cons.mp hx with rfl | hx2
      · exact hle
      · exact le_trans (hg x hx2) hle
    · rw [if_neg hle]
      refine List.Pairwise.cons ?_ (ih hgs)
      intro x hx
      rcases mem_insertByIdDesc.mp hx with rfl | hx2
      · exact le_of_lt (lt_of_not_le hle)
      · exact hg x hx2

theorem pairwise_sortByIdDesc (l : List Finding) :
    (sortByIdDesc l).Pairwise (fun a b => b.id ≤ a.id) := by
  induction l with
  | nil => simp [sortByIdDesc]
  | cons g gs ih => exact pairwise_insertByIdDesc g (sortByIdDesc gs) ih

theorem mem_insertByNoAsc {x r : ModelRow} {l : List ModelRow} :
    x ∈ insertByNoAsc r l ↔ x = r ∨ x ∈ l := by
  induction l with
  | nil => simp [insertByNoAsc]
  | cons g gs ih =>
    rw [insertByNoAsc]
    by_cases hle : strLe r.model_no g.model_no = true
    · rw [if_pos hle]
      simp [List.mem_cons]
    · rw [if_neg hle]
      simp only [List.mem_cons, ih]
      tauto

theorem mem_sortByNoAsc {x : ModelRow} {l : List ModelRow} :
    x ∈ sortByNoAsc l ↔ x ∈ l := by
  induction l with
  | nil => simp [sortByNoAsc]
  | cons g gs ih =>
    have hstep : sortByNoAsc (g :: gs) = insertByNoAsc g (sortByNoAsc gs) := rfl
    rw [hstep, mem_insertByNoAsc, ih, List.mem_cons]

theorem find?_setCol_replaced (p : Payload) (k : String) (v : Val)
    (h : ∃ kv ∈ p, kv.1 = k) :
    (p.map (fun kv => if kv.1 = k then (k, v) else kv)).find?
      (fun kv => kv.1 = k) = some (k, v) := by
  induction p with
  | nil => simp at h
  | cons a as ih =>
    by_cases ha : a.1 = k
    · rw [List.map_cons, if_pos ha, List.find?_cons_of_pos _ (by simp)]
    · rw [List.map_cons, if_neg ha, List.find?_cons_of_neg _ (by simpa using ha)]
      apply ih
      rcases h with ⟨kv, hkv, hkve⟩
      rcases List.mem_cons.mp hkv with rfl | hkv2
      · exact absurd hkve ha
      · exact ⟨kv, hkv2, hkve⟩

theorem find?_setCol_appended (p : Payload) (k : String) (v : Val)
    (h : ∀ kv ∈ p, kv.1 ≠ k) :
    (p ++ [(k, v)]).find? (fun kv => kv.1 = k) = some (k, v) := by
  induction p with
  | nil => simp
  | cons a as ih =>
    rw [List.cons_append,
      List.find?_cons_of_neg _ (by simpa using h a (List.mem_cons_self a as))]
    exact ih (fun kv hkv => h kv (List.mem_cons_of_mem a hkv))

theorem getCol_setCol_self (p : Payload) (k : String) (v : Val) :
    getCol (setCol p k v) k = some v := by
  unfold setCol getCol
  by_cases h : ∃ kv ∈ p, kv.1 = k
  · rw [if_pos (by simpa [List.any_eq_true] using h), find?_setCol_replaced p k v h]
    rfl
  · push_neg at h
    have hfalse : ¬(p.any (fun kv => kv.1 = k) = true) := by
      intro hc
      rcases List.any_eq_true.mp hc with ⟨kv, hkv, hkve⟩
      exact h kv hkv (by simpa using hkve)
    rw [if_neg hfalse, find?_setCol_appended p k v h]
    rfl

theorem getModel_upsert_default (st : AppState) (m : String) (hfix : pystrip m = m) :
    getModel (upsert_model st m "" "" "").db.models m = some ⟨m, "", "", ""⟩ := by
  have h := getModel_upsertRow_self st.db.models ⟨pystrip m, pystrip "", pystrip "", pystrip ""⟩
  simp only [pystrip_empty] at h
  rw [hfix] at h
  show getModel (upsertRow st.db.models ⟨pystrip m, pystrip "", pystrip "", pystrip ""⟩) m
    = some ⟨m, "", "", ""⟩
  simp only [pystrip_empty]
  rw [hfix]
  exact h

theorem list_models_cached_db (st : AppState) : (list_models_cached st).2.db = st.db := by
  unfold list_models_cached
  split <;> rfl

theorem load_findings_cached_db (a : String) (b : Option String) (st : AppState) :
    (load_findings_cached a b st).2.db = st.db := by
  unfold load_findings_cached
  split <;> rfl

/-! The claims. -/

/-- Claim C2 (confirmed): `upsert_model` inserts a row when the stripped
model number is absent, otherwise fully replaces all three attributes with
the supplied values (the code whitespace-strips all four arguments, so an
empty string clears a stored field), leaves every other row in place, and
leaves exactly one row for that model number; repeating the call with
identical arguments changes nothing (idempotence). -/
theorem claim_C2_theorem (st : AppState) (m n c b : String)
    (hnod : (st.db.models.map (fun r => r.model_no)).Nodup) :
    getModel (upsert_model st m n c b).db.models (pystrip m)
      = some ⟨pystrip m, pystrip n, pystrip c, pystrip b⟩ ∧
    (∀ r ∈ st.db.models, r.model_no ≠ pystrip m →
      r ∈ (upsert_model st m n c b).db.models) ∧
    (getModel st.db.models (pystrip m) = none →
      (upsert_model st m n c b).db.models
        = st.db.models ++ [⟨pystrip m, pystrip n, pystrip c, pystrip b⟩]) ∧
    ((upsert_model st m n c b).db.models.filter
      (fun r => r.model_no = pystrip m)).length = 1 ∧
    (upsert_model (upsert_model st m n c b) m n c b).db.models
      = (upsert_model st m n c b).db.models := by
  refine ⟨?_, ?_, ?_, ?_, ?_⟩
  · exact getModel_upsertRow_self st.db.models
      ⟨pystrip m, pystrip n, pystrip c, pystrip b⟩
  · intro r hr hne
    exact mem_upsertRow_of_ne hr hne
  · intro habs
    exact upsertRow_absent _ _ ((getModel_eq_none_iff _ _).mp habs)
  · have hf : ((upsert_model st m n c b).db.models.filter
        (fun r => r.model_no = pystrip m))
        = [⟨pystrip m, pystrip n, pystrip c, pystrip b⟩] :=
      filter_upsertRow_self st.db.models
        (⟨pystrip m, pystrip n, pystrip c, pystrip b⟩ : ModelRow) hnod
    rw [hf]
    rfl
  · exact upsertRow_idem st.db.models ⟨pystrip m, pystrip n, pystrip c, pystrip b⟩

def c2_wst : AppState := ⟨⟨[⟨"X", "a", "b", "c"⟩], [], 1⟩, none, []⟩

theorem claim_C2_witness :
    ((c2_wst.db.models.map (fun r => r.model_no)).Nodup) ∧
    (getModel (upsert_model c2_wst "X" " New name " "Cust" "").db.models (pystrip "X")
      = some ⟨pystrip "X", pystrip " New name ", pystrip "Cust", pystrip ""⟩ ∧
    (∀ r ∈ c2_wst.db.models, r.model_no ≠ pystrip "X" →
      r ∈ (upsert_model c2_wst "X" " New name " "Cust" "").db.models) ∧
    (getModel c2_wst.db.models (pystrip "X") = none →
      (upsert_model c2_wst "X" " New name " "Cust" "").db.models
        = c2_wst.db.models ++ [⟨pystrip "X", pystrip " New name ", pystrip "Cust", pystrip ""⟩]) ∧
    ((upsert_model c2_wst "X" " New name " "Cust" "").db.models.filter
      (fun r => r.model_no = pystrip "X")).length = 1 ∧
    (upsert_model (upsert_model c2_wst "X" " New name " "Cust" "") "X" " New name " "Cust" "").db.models
      = (upsert_model c2_wst "X" " New name " "Cust" "").db.models) :=
  ⟨by decide, claim_C2_theorem c2_wst "X" " New name " "Cust" "" (by decide)⟩

/-- Claim C3 (confirmed): a record insert whose model number is empty is
rejected with nothing written.  The report-flow handler refuses with its
model-number error before any write, and the import loop skips such a row
(`continue`, or the `KeyError` path when the column is missing) before any
write; in both cases the returned state is exactly the input state. -/
theorem claim_C3_theorem :
    (∀ (Img : Type) (blob : Img → Except Unit String) (now : String)
       (inp : RfInput Img) (st : AppState),
       pystrip inp.rep_model = "" →
       rf_save blob now inp st = (st, some RfErr.noModel)) ∧
    (∀ (parse : String → Option String) (cfg : ImportCfg) (now : String)
       (st : AppState) (row : Row) (mcell : Cell),
       rowGet row cfg.modelCol = some mcell → pystrip (cellStr mcell) = "" →
       import_row parse cfg now st row = (st, false)) ∧
    (∀ (parse : String → Option String) (cfg : ImportCfg) (now : String)
       (st : AppState) (row : Row),
       rowGet row cfg.modelCol = none →
       import_row parse cfg now st row = (st, false)) := by
  refine ⟨?_, ?_, ?_⟩
  · intro Img blob now inp st h
    unfold rf_save
    rw [if_pos h]
  · intro parse cfg now st row mcell h1 h2
    unfold import_row
    rw [h1]
    simp [h2]
  · intro parse cfg now st row h
    unfold import_row
    rw [h]

def c3_inp : RfInput Unit :=
  ⟨"   ", [()], "DIP-A", "1", "Day", "Electrical", "Polarity error", "d",
   0, 0, 0, "Stock", "IPQC", "IPQC", "None", "", ""⟩

def c3_st : AppState := ⟨⟨[⟨"K", "n", "c", "b"⟩], [⟨1, [("model_no", Val.s "K")]⟩], 2⟩, none, []⟩

theorem claim_C3_witness :
    (pystrip c3_inp.rep_model = "") ∧
    rf_save (fun _ => Except.ok "p.jpg") "2024-05-01T00:00:00" c3_inp c3_st
      = (c3_st, some RfErr.noModel) :=
  ⟨by decide,
   claim_C3_theorem.1 Unit (fun _ => Except.ok "p.jpg") "2024-05-01T00:00:00"
     c3_inp c3_st (by decide)⟩

/-- Claim C9 (confirmed): both the report-flow save (past its two guards,
whatever the image saves do) and every imported row with a non-blank model
number call `upsert_model(model_no)` with the default empty
name/customer/bucket, and the upsert is a full replace — so a pre-existing
model row for that number ends with all three attributes empty. -/
theorem claim_C9_theorem :
    (∀ (Img : Type) (blob : Img → Except Unit String) (now : String)
       (inp : RfInput Img) (st : AppState) (m : String),
       pystrip inp.rep_model = m → pystrip m = m → m ≠ "" →
       inp.images.isEmpty = false →
       getModel ((rf_save blob now inp st).1).db.models m = some ⟨m, "", "", ""⟩) ∧
    (∀ (parse : String → Option String) (cfg : ImportCfg) (now : String)
       (st : AppState) (row : Row) (mcell : Cell) (m : String),
       rowGet row cfg.modelCol = some mcell → pystrip (cellStr mcell) = m →
       pystrip m = m → m ≠ "" →
       getModel ((import_row parse cfg now st row).1).db.models m = some ⟨m, "", "", ""⟩) := by
  constructor
  · intro Img blob now inp st m hm hfix hne himg
    unfold rf_save
    rw [hm, if_neg hne, himg]
    rw [if_neg (by simp)]
    cases hsv : inp.images.mapM blob with
    | error e => exact getModel_upsert_default st m hfix
    | ok saved => exact getModel_upsert_default st m hfix
  · intro parse cfg now st row mcell m hcell hm hfix hne
    unfold import_row
    rw [hcell]
    simp only [hm]
    rw [if_neg hne]
    repeat' split
    all_goals exact getModel_upsert_default st m hfix

def c9_inp : RfInput Unit :=
  ⟨"M9", [()], "DIP-A", "1", "Day", "Electrical", "Polarity error", "broken part",
   1, 2, 3, "Stock", "IPQC", "IPQC", "None", "MO-1", "rep"⟩

def c9_st : AppState := ⟨⟨[⟨"M9", "Amplifier", "ACME", "Folder1"⟩], [], 5⟩, none, []⟩

theorem claim_C9_witness :
    (pystrip c9_inp.rep_model = "M9" ∧ pystrip "M9" = "M9" ∧ "M9" ≠ ""
      ∧ c9_inp.images.isEmpty = false) ∧
    getModel ((rf_save (fun _ => Except.ok "M9/p.jpg") "2024-05-01T00:00:00"
        c9_inp c9_st).1).db.models "M9" = some ⟨"M9", "", "", ""⟩ :=
  ⟨⟨by decide, by decide, by decide, by decide⟩,
   claim_C9_theorem.1 Unit (fun _ => Except.ok "M9/p.jpg") "2024-05-01T00:00:00"
     c9_inp c9_st "M9" (by decide) (by decide) (by decide) (by decide)⟩

/-- Claim C10 (confirmed): the history search box is not side-effect-free
on the registry: a non-blank query whose stripped model number is missing
from the (cache-coherent) model list gets a bare model row upserted for it
by the search handler itself. -/
theorem claim_C10_theorem (st : AppState) (query : String) (since : Option String) (m : String)
    (hcache : st.modelsCache = none)
    (hq : ¬(query = "")) (hm : pystrip query = m) (hfix : pystrip m = m) (hne : m ≠ "")
    (habs : getModel st.db.models m = none) :
    getModel (history_search st query since).db.models m = some ⟨m, "", "", ""⟩ := by
  have h0 : list_models_cached st
      = (list_models_q st.db, { st with modelsCache := some (list_models_q st.db) }) := by
    unfold list_models_cached
    rw [hcache]
  unfold history_search
  rw [h0]
  dsimp only
  rw [if_neg hq]
  simp only [hm]
  have hnotin : ¬((list_models_q st.db).any (fun r => r.model_no = m) = true) := by
    intro hc
    rcases List.any_eq_true.mp hc with ⟨x, hx, hxe⟩
    have hx2 : x ∈ st.db.models := mem_sortByNoAsc.mp hx
    exact (getModel_eq_none_iff st.db.models m).mp habs x hx2 (by simpa using hxe)
  rw [if_pos ⟨hne, hnotin⟩]
  rw [load_findings_cached_db, list_models_cached_db]
  exact getModel_upsert_default { st with modelsCache := some (list_models_q st.db) } m hfix

def c10_st : AppState := ⟨⟨[⟨"OTHER", "o", "p", "q"⟩], [], 1⟩, none, []⟩

theorem claim_C10_witness :
    (c10_st.modelsCache = none ∧ ¬((" QX " : String) = "") ∧ pystrip " QX " = "QX"
      ∧ pystrip "QX" = "QX" ∧ "QX" ≠ "" ∧ getModel c10_st.db.models "QX" = none) ∧
    getModel (history_search c10_st " QX " none).db.models "QX" = some ⟨"QX", "", "", ""⟩ :=
  ⟨⟨by decide, by decide, by decide, by decide, by decide, by decide⟩,
   claim_C10_theorem c10_st " QX " none "QX" (by decide) (by decide) (by decide)
     (by decide) (by decide) (by decide)⟩

/-- Claim C1 (amended): the registry mutations (`upsert_model`,
`update_model_meta`, `delete_model_all`, and `rename_model` on its success
path) invalidate only the memoized model list; none of them touches the
memoized findings cache — in particular `rename_model` and
`delete_model_all`, which mutate findings rows, leave the findings cache
exactly as it was — and the raw record-store mutations `insert_finding`,
`update_finding` and `delete_finding` invalidate neither cache (their UI
callers clear the findings cache separately after a finding mutation). -/
theorem claim_C1_theorem :
    (∀ (st : AppState) (m n c b : String),
      (upsert_model st m n c b).modelsCache = none ∧
      (upsert_model st m n c b).findingsCache = st.findingsCache) ∧
    (∀ (st : AppState) (m n c b : String),
      (update_model_meta st m n c b).modelsCache = none ∧
      (update_model_meta st m n c b).findingsCache = st.findingsCache) ∧
    (∀ (st : AppState) (m : String) (di df dc : Bool),
      (delete_model_all st m di df dc).modelsCache = none ∧
      (delete_model_all st m di df dc).findingsCache = st.findingsCache) ∧
    (∀ (st : AppState) (o n : String),
      (rename_model st o n).1.findingsCache = st.findingsCache) ∧
    (∀ (st : AppState) (o n : String) (st1 : AppState),
      rename_model st o n = (st1, none) → st1.modelsCache = none) ∧
    (∀ (st : AppState) (p : Payload),
      (insert_finding st p).modelsCache = st.modelsCache ∧
      (insert_finding st p).findingsCache = st.findingsCache) ∧
    (∀ (st : AppState) (fid : Nat) (p : Payload),
      (update_finding st fid p).modelsCache = st.modelsCache ∧
      (update_finding st fid p).findingsCache = st.findingsCache) ∧
    (∀ (st : AppState) (fid : Nat),
      (delete_finding st fid).modelsCache = st.modelsCache ∧
      (delete_finding st fid).findingsCache = st.findingsCache) := by
  refine ⟨fun st m n c b => ⟨rfl, rfl⟩, fun st m n c b => ⟨rfl, rfl⟩,
    fun st m di df dc => ⟨rfl, rfl⟩, ?_, ?_, fun st p => ⟨rfl, rfl⟩, ?_, ?_⟩
  · intro st o n
    simp only [rename_model]
    by_cases h1 : pystrip o = "" ∨ pystrip n = "" ∨ pystrip o = pystrip n
    · rw [if_pos h1]
    · rw [if_neg h1]
      cases h2 : getModel st.db.models (pystrip o) with
      | none => rfl
      | some r => rfl
  · intro st o n st1 h
    simp only [rename_model] at h
    by_cases h1 : pystrip o = "" ∨ pystrip n = "" ∨ pystrip o = pystrip n
    · rw [if_pos h1] at h
      injection h with ha hb
      simp at hb
    · rw [if_neg h1] at h
      cases h2 : getModel st.db.models (pystrip o) with
      | none =>
        rw [h2] at h
        injection h with ha hb
        simp at hb
      | some r =>
        rw [h2] at h
        injection h with ha hb
        rw [← ha]
  · intro st fid p
    unfold update_finding
    split
    · exact ⟨rfl, rfl⟩
    · exact ⟨rfl, rfl⟩
  · intro st fid
    unfold delete_finding
    split
    · exact ⟨rfl, rfl⟩
    · exact ⟨rfl, rfl⟩

def c1_find : Finding :=
  ⟨1, [("created_at", Val.s "2024-01-01T00:00:00"), ("model_no", Val.s "A")]⟩

/-- A state in which the findings query for model `A` has been memoized
(the cached value is exactly what `load_findings` computes). -/
def c1_st : AppState :=
  ⟨⟨[⟨"A", "Amp", "ACME", "F1"⟩], [c1_find], 2⟩, none, [(("A", none), [c1_find])]⟩

/-- Claim C1 (counterexample): `rename_model` is a mutating registry and
record-store operation (it rewrites the findings rows of the renamed
model), yet after it succeeds the memoized findings query is still
populated: the next cached read for the old model number returns the
stale pre-rename rows while a recomputation returns none. -/
theorem claim_C1_counterexample :
    (rename_model c1_st "A" "B").2 = none ∧
    (rename_model c1_st "A" "B").1.findingsCache = [(("A", none), [c1_find])] ∧
    (load_findings_cached "A" none (rename_model c1_st "A" "B").1).1 = [c1_find] ∧
    load_findings "A" none (rename_model c1_st "A" "B").1.db = [] := by
  decide

def c1_wst : AppState := ⟨⟨[⟨"Z", "n", "c", "b"⟩], [], 1⟩, some [⟨"Z", "n", "c", "b"⟩], [(("Z", none), [])]⟩

theorem claim_C1_witness :
    (upsert_model c1_wst "Z" "" "" "").modelsCache = none ∧
    (rename_model c1_wst "Z" "Y").1.findingsCache = c1_wst.findingsCache ∧
    (insert_finding c1_wst []).findingsCache = c1_wst.findingsCache :=
  ⟨(claim_C1_theorem.1 c1_wst "Z" "" "" "").1,
   claim_C1_theorem.2.2.2.1 c1_wst "Z" "Y",
   (claim_C1_theorem.2.2.2.2.2.1 c1_wst []).2⟩

/-- Claim C4 (amended): when the (stripped) target number already names a
different existing model — whatever its data — `rename_model` does not
fail: it returns no error, silently overwrites the target row attributes
with the source row attributes, repoints every finding of the old number
to the new one, and deletes the old row.  (The only failures are blank or
equal numbers and a missing source model.) -/
theorem claim_C4_theorem (st : AppState) (old_no new_no o n : String) (r : ModelRow)
    (ho : pystrip old_no = o) (hn : pystrip new_no = n)
    (hoe : ¬(o = "")) (hne : ¬(n = "")) (hone : ¬(o = n))
    (hrow : getModel st.db.models o = some r) :
    (rename_model st old_no new_no).2 = none ∧
    getModel (rename_model st old_no new_no).1.db.models n
      = some ⟨n, r.name, r.customer, r.bucket⟩ ∧
    getModel (rename_model st old_no new_no).1.db.models o = none ∧
    (∀ f ∈ st.db.findings, getCol f.cols "model_no" = some (Val.s o) →
      ∃ f1 ∈ (rename_model st old_no new_no).1.db.findings,
        f1.id = f.id ∧ getCol f1.cols "model_no" = some (Val.s n)) ∧
    (∀ f1 ∈ (rename_model st old_no new_no).1.db.findings,
      ¬(getCol f1.cols "model_no" = some (Val.s o))) := by
  have hguard : ¬(pystrip old_no = "" ∨ pystrip new_no = "" ∨ pystrip old_no = pystrip new_no) := by
    rw [ho, hn]
    push_neg
    exact ⟨hoe, hne, hone⟩
  have hred : rename_model st old_no new_no
      = ({ st with
            db := { st.db with
              models := (upsertRow st.db.models ⟨n, r.name, r.customer, r.bucket⟩).filter
                (fun x => x.model_no ≠ o)
              findings := st.db.findings.map (fun f =>
                if getCol f.cols "model_no" = some (Val.s o) then
                  { f with cols := setCol f.cols "model_no" (Val.s n) }
                else f) }
            modelsCache := none }, none) := by
    simp only [rename_model]
    rw [if_neg hguard, ho, hn, hrow]
  rw [hred]
  refine ⟨rfl, ?_, ?_, ?_, ?_⟩
  · show ((upsertRow st.db.models ⟨n, r.name, r.customer, r.bucket⟩).filter
        (fun x => x.model_no ≠ o)).find? (fun x => x.model_no = n)
      = some ⟨n, r.name, r.customer, r.bucket⟩
    rw [find?_filter_of_imp
      (upsertRow st.db.models ⟨n, r.name, r.customer, r.bucket⟩)
      (fun x : ModelRow => x.model_no = n) (fun x : ModelRow => x.model_no ≠ o)
      (by
        intro x hx
        have hx2 : x.model_no = n := by simpa using hx
        simp [hx2]
        intro hc
        exact hone hc.symm)]
    exact getModel_upsertRow_self st.db.models ⟨n, r.name, r.customer, r.bucket⟩
  · apply List.find?_eq_none.mpr
    intro x hx
    have := (List.mem_filter.mp hx).2
    simpa using this
  · intro f hf hcol
    refine ⟨{ f with cols := setCol f.cols "model_no" (Val.s n) }, ?_, rfl, ?_⟩
    · exact List.mem_map.mpr ⟨f, hf, by rw [if_pos hcol]⟩
    · exact getCol_setCol_self f.cols "model_no" (Val.s n)
  · intro f1 h1 hc
    rcases List.mem_map.mp h1 with ⟨x, hx, heq⟩
    by_cases hxcol : getCol x.cols "model_no" = some (Val.s o)
    · rw [if_pos hxcol] at heq
      rw [← heq] at hc
      rw [getCol_setCol_self x.cols "model_no" (Val.s n)] at hc
      injection hc with hc2
      exact hone (by injection hc2 with hc3; exact hc3.symm)
    · rw [if_neg hxcol] at heq
      rw [← heq] at hc
      exact hxcol hc

def c4_find : Finding := ⟨1, [("created_at", Val.s "2024-02-02T00:00:00"), ("model_no", Val.s "A")]⟩

/-- Registry with two distinct models `A` and `B` carrying different
(incompatible) data, and one finding owned by `A`. -/
def c4_st : AppState :=
  ⟨⟨[⟨"A", "an", "ac", "af"⟩, ⟨"B", "bn", "bc", "bf"⟩], [c4_find], 2⟩, none, []⟩

/-- Claim C4 (counterexample): renaming `A` to the already-taken number `B`
returns no error (no ConflictError exists anywhere in the code), and the
stores are not left untouched: the row for `B` now carries the data of
`A`, the row for `A` is gone, and the finding has been repointed. -/
theorem claim_C4_counterexample :
    (rename_model c4_st "A" "B").2 = none ∧
    (rename_model c4_st "A" "B").1.db.models = [⟨"B", "an", "ac", "af"⟩] ∧
    (rename_model c4_st "A" "B").1.db.findings
      = [⟨1, [("created_at", Val.s "2024-02-02T00:00:00"), ("model_no", Val.s "B")]⟩] := by
  decide

theorem claim_C4_witness :
    (pystrip "A" = "A" ∧ pystrip "B" = "B" ∧ ¬(("A" : String) = "") ∧ ¬(("B" : String) = "")
      ∧ ¬(("A" : String) = "B") ∧ getModel c4_st.db.models "A" = some ⟨"A", "an", "ac", "af"⟩) ∧
    ((rename_model c4_st "A" "B").2 = none ∧
     getModel (rename_model c4_st "A" "B").1.db.models "B" = some ⟨"B", "an", "ac", "af"⟩ ∧
     getModel (rename_model c4_st "A" "B").1.db.models "A" = none ∧
     (∀ f ∈ c4_st.db.findings, getCol f.cols "model_no" = some (Val.s "A") →
       ∃ f1 ∈ (rename_model c4_st "A" "B").1.db.findings,
         f1.id = f.id ∧ getCol f1.cols "model_no" = some (Val.s "B")) ∧
     (∀ f1 ∈ (rename_model c4_st "A" "B").1.db.findings,
       ¬(getCol f1.cols "model_no" = some (Val.s "A")))) :=
  ⟨⟨by decide, by decide, by decide, by decide, by decide, by decide⟩,
   claim_C4_theorem c4_st "A" "B" "A" "B" ⟨"A", "an", "ac", "af"⟩
     (by decide) (by decide) (by decide) (by decide) (by decide) (by decide)⟩

/-- Claim C5 (amended): `delete_model_all` with the findings cascade turned
off never fails — there is no DependencyError in the code — and does not
leave the store unchanged either: it always removes the model row while
keeping every dependent finding, which are left orphaned. -/
theorem claim_C5_theorem (st : AppState) (model_no : String) (di dc : Bool) :
    (delete_model_all st model_no di false dc).db.findings = st.db.findings ∧
    getModel (delete_model_all st model_no di false dc).db.models model_no = none ∧
    (∀ x ∈ st.db.models, x.model_no ≠ model_no →
      x ∈ (delete_model_all st model_no di false dc).db.models) := by
  refine ⟨rfl, ?_, ?_⟩
  · apply List.find?_eq_none.mpr
    intro x hx
    have := (List.mem_filter.mp hx).2
    simpa using this
  · intro x hx hne
    exact List.mem_filter.mpr ⟨hx, by simpa using hne⟩

def c5_find : Finding := ⟨1, [("created_at", Val.s "2024-03-03T00:00:00"), ("model_no", Val.s "M")]⟩

def c5_st : AppState := ⟨⟨[⟨"M", "mn", "mc", "mb"⟩], [c5_find], 2⟩, none, []⟩

/-- Claim C5 (counterexample): model `M` has a dependent finding; deleting
it with the findings cascade off removes the model row anyway and keeps
the finding — instead of failing with DependencyError and removing
nothing. -/
theorem claim_C5_counterexample :
    (delete_model_all c5_st "M" false false false).db.models = [] ∧
    (delete_model_all c5_st "M" false false false).db.findings = [c5_find] := by
  decide

theorem claim_C5_witness :
    (delete_model_all c5_st "M" false false false).db.findings = c5_st.db.findings ∧
    getModel (delete_model_all c5_st "M" false false false).db.models "M" = none :=
  ⟨(claim_C5_theorem c5_st "M" false false).1, (claim_C5_theorem c5_st "M" false false).2.1⟩

/-- A source row the import loop fully processes: the required columns are
present, the model number is non-blank after stripping, and every mapped
optional column exists in the row.  Nothing about date parseability
appears here. -/
def rowOk (cfg : ImportCfg) (row : Row) : Bool :=
  (match rowGet row cfg.modelCol with
   | some mc => decide (¬(pystrip (cellStr mc) = ""))
   | none => false) &&
  (match lookupOptCol cfg.optMap "created_at" with
   | some col => (rowGet row col).isSome
   | none => true) &&
  (rowGet row cfg.catCol).isSome &&
  (rowGet row cfg.descCol).isSome &&
  (cfg.optMap.all (fun kc =>
    match kc.2 with
    | some col => (rowGet row col).isSome
    | none => true))

theorem optfold_isSome (row : Row) (l : List (String × Option String))
    (hl : l.all (fun kc =>
      match kc.2 with
      | some col => (rowGet row col).isSome
      | none => true) = true) :
    ∀ p : Payload, (l.foldl (optStep row) (some p)).isSome = true := by
  induction l with
  | nil =>
    intro p
    rfl
  | cons kc rest ih =>
    intro p
    rw [List.all_cons, Bool.and_eq_true] at hl
    obtain ⟨h1, h2⟩ := hl
    rw [List.foldl_cons]
    cases hkc : kc.2 with
    | none =>
      have hstep : optStep row (some p) kc = some p := by
        simp [optStep, hkc]
      rw [hstep]
      exact ih h2 p
    | some col =>
      rw [hkc] at h1
      cases hcell : rowGet row col with
      | none =>
        simp [hcell] at h1
      | some cell =>
        obtain ⟨p2, hp2⟩ : ∃ p2, optStep row (some p) kc = some p2 := by
          simp [optStep, hkc, hcell]
        rw [hp2]
        exact ih h2 p2

theorem import_row_ok (parse : String → Option String) (cfg : ImportCfg) (now : String)
    (st : AppState) (row : Row) (h : rowOk cfg row = true) :
    (import_row parse cfg now st row).2 = true ∧
    (import_row parse cfg now st row).1.db.findings.length
      = st.db.findings.length + 1 := by
  unfold rowOk at h
  rw [Bool.and_eq_true, Bool.and_eq_true, Bool.and_eq_true, Bool.and_eq_true] at h
  obtain ⟨⟨⟨⟨hmno, hcat0⟩, hcat⟩, hdesc⟩, hall⟩ := h
  cases hmc : rowGet row cfg.modelCol with
  | none =>
    rw [hmc] at hmno
    simp at hmno
  | some mc =>
    rw [hmc] at hmno
    have hne : ¬(pystrip (cellStr mc) = "") := by simpa using hmno
    unfold import_row
    rw [hmc]
    simp only
    rw [if_neg hne]
    have hcatt : (match lookupOptCol cfg.optMap "created_at" with
        | some col => rowGet row col
        | none => some (some "")).isSome = true := by
      cases hl : lookupOptCol cfg.optMap "created_at" with
      | none => rfl
      | some col =>
        rw [hl] at hcat0
        simpa using hcat0
    rcases Option.isSome_iff_exists.mp hcatt with ⟨ccell, hccell⟩
    rw [hccell]
    rcases Option.isSome_iff_exists.mp hcat with ⟨ccat, hccat⟩
    rcases Option.isSome_iff_exists.mp hdesc with ⟨cdesc, hcdesc⟩
    rw [hccat, hcdesc]
    have hfold := optfold_isSome row cfg.optMap hall
      [("created_at", Val.s (if pystrip (cellStr ccell) ≠ ""
            ∧ pyLower (cellStr ccell) ≠ "nan" then
            (parse (cellStr ccell)).getD now else now)),
       ("model_no", Val.s (pystrip (cellStr mc))),
       ("nonconformity_category", Val.s (cellStr ccat)),
       ("description", Val.s (cellStr cdesc)),
       ("image_path", Val.s ""), ("extra", Val.s (jsonImages [])),
       ("need_capa", Val.i 0), ("reply_closed", Val.i 0), ("results_closed", Val.i 0)]
    rcases Option.isSome_iff_exists.mp hfold with ⟨payload, hpayload⟩
    simp [hpayload, insert_finding, upsert_model]

theorem import_loop_ok (parse : String → Option String) (cfg : ImportCfg) (now : String)
    (rows : List Row) (h : ∀ row ∈ rows, rowOk cfg row = true) :
    ∀ st : AppState, (import_loop parse cfg now st rows).2 = rows.length ∧
      (import_loop parse cfg now st rows).1.db.findings.length
        = st.db.findings.length + rows.length := by
  induction rows with
  | nil =>
    intro st
    exact ⟨rfl, rfl⟩
  | cons r rs ih =>
    intro st
    have hr := import_row_ok parse cfg now st r (h r (List.mem_cons_self r rs))
    have hrec := ih (fun x hx => h x (List.mem_cons_of_mem r hx))
      (import_row parse cfg now st r).1
    constructor
    · simp only [import_loop]
      rw [hr.1, hrec.1]
      simp [Nat.add_comm]
    · simp only [import_loop]
      rw [hrec.2, hr.2, List.length_cons]
      omega

/-- Claim C6 (amended): the commit loop never skips a row over its date —
a row whose date string fails to parse is inserted like any other, its
normalized date falling back to the import time (and then being overridden
by the raw mapped value in the optional-field loop).  For any batch of
rows whose required columns are present and model numbers non-blank, the
commit inserts every row and reports that inserted count; so ten rows with
an unparseable date in row 5 yield 10 imported rows, not 9, and no skip
count is reported (none exists). -/
theorem claim_C6_theorem (parse : String → Option String) (cfg : ImportCfg) (now : String)
    (st : AppState) (rows : List Row)
    (h : ∀ row ∈ rows, rowOk cfg row = true) :
    (import_commit parse cfg now st rows).2 = rows.length ∧
    (import_commit parse cfg now st rows).1.db.findings.length
      = st.db.findings.length + rows.length := by
  have hl := import_loop_ok parse cfg now rows h st
  unfold import_commit
  exact ⟨hl.1, hl.2⟩

/-- The full optional-field mapping of the import form, with only the
created-at date column mapped (every other field skipped). -/
def c6_optMap : List (String × Option String) :=
  [("created_at", some "T"), ("station", none), ("line", none), ("shift", none),
   ("defective_qty", none), ("inspection_qty", none), ("lot_qty", none),
   ("stock_or_wip", none), ("discovery_dept", none), ("source", none),
   ("outflow_stage", none), ("defect_group", none), ("defect_item", none),
   ("mo_po", none), ("reporter", none)]

def c6_cfg : ImportCfg := ⟨"M", "C", "D", c6_optMap⟩

def c6_row (d : String) : Row :=
  [("M", some "PN-1"), ("C", some "Polarity error"), ("D", some "desc"), ("T", some d)]

/-- Ten well-formed source rows whose fifth date cell is unparseable. -/
def c6_rows : List Row :=
  [c6_row "2024-01-01", c6_row "2024-01-02", c6_row "2024-01-03", c6_row "2024-01-04",
   c6_row "not-a-date", c6_row "2024-01-06", c6_row "2024-01-07", c6_row "2024-01-08",
   c6_row "2024-01-09", c6_row "2024-01-10"]

/-- A date parser (standing for `pd.to_datetime`) that fails exactly on the
bad cell of row 5. -/
def c6_parse (s : String) : Option String :=
  if s = "not-a-date" then none else some (s ++ "T00:00:00")

def c6_st : AppState := ⟨⟨[], [], 1⟩, none, []⟩

/-- Claim C6 (counterexample): committing the ten rows above — row 5
carrying the only unparseable date — imports all 10 rows (the findings
table gains 10 rows, row 5 included), and the reported count is 10
inserted, not 9 imported with a skip count of 1. -/
theorem claim_C6_counterexample :
    (import_commit c6_parse c6_cfg "2024-09-30T12:00:00" c6_st c6_rows).2 = 10 ∧
    (import_commit c6_parse c6_cfg "2024-09-30T12:00:00" c6_st c6_rows).1.db.findings.length = 10 := by
  decide

theorem claim_C6_witness :
    (∀ row ∈ c6_rows, rowOk c6_cfg row = true) ∧
    ((import_commit c6_parse c6_cfg "2024-09-30T12:00:00" c6_st c6_rows).2 = c6_rows.length ∧
     (import_commit c6_parse c6_cfg "2024-09-30T12:00:00" c6_st c6_rows).1.db.findings.length
       = c6_st.db.findings.length + c6_rows.length) :=
  ⟨by decide,
   claim_C6_theorem c6_parse c6_cfg "2024-09-30T12:00:00" c6_st c6_rows (by decide)⟩

/-- Claim C7 (amended): `severity` is a nullable INTEGER column (the edit
form offers a 0 to 10 score), not a closed three-value enumeration, and
`load_findings` returns exactly the findings of the model (inside the day
window) ordered by id descending with no severity tie-break at all. -/
theorem claim_C7_theorem (db : DB) (model_no : String) (since : Option String) :
    (load_findings model_no since db).Pairwise (fun a b => b.id ≤ a.id) ∧
    (∀ f, f ∈ load_findings model_no since db ↔
      f ∈ db.findings ∧ lf_pred model_no since f = true) ∧
    (load_findings model_no since db).length
      = (db.findings.filter (lf_pred model_no since)).length := by
  refine ⟨pairwise_sortByIdDesc _, ?_, length_sortByIdDesc _⟩
  intro f
  rw [show load_findings model_no since db
      = sortByIdDesc (db.findings.filter (lf_pred model_no since)) from rfl,
    mem_sortByIdDesc, List.mem_filter]

/-- An import-shaped finding payload (no severity: inserts leave the
severity column NULL). -/
def c7_pay : Payload :=
  [("created_at", Val.s "2024-05-01T00:00:00"), ("model_no", Val.s "M7"),
   ("nonconformity_category", Val.s "Polarity error"), ("description", Val.s "d"),
   ("image_path", Val.s ""), ("extra", Val.s (jsonImages [])),
   ("need_capa", Val.i 0), ("reply_closed", Val.i 0), ("results_closed", Val.i 0)]

def c7_base : AppState := ⟨⟨[⟨"M7", "", "", ""⟩], [], 1⟩, none, []⟩

/-- Two findings for `M7` inserted at the same timestamp (ids 1 and 2). -/
def c7_two : AppState := insert_finding (insert_finding c7_base c7_pay) c7_pay

/-- Severity scores set through `update_finding`: id 1 more severe. -/
def c7_stA : AppState :=
  update_finding (update_finding c7_two 1 [("severity", Val.i 10)]) 2 [("severity", Val.i 1)]

/-- The same two findings with the severity scores swapped. -/
def c7_stB : AppState :=
  update_finding (update_finding c7_two 1 [("severity", Val.i 1)]) 2 [("severity", Val.i 10)]

/-- A finding whose severity is the integer 7. -/
def c7_st7 : AppState := update_finding c7_two 1 [("severity", Val.i 7)]

/-- Claim C7 (counterexample): severity holds arbitrary integer scores
(here 7 — no three-value enumeration), and for two records of equal
insertion recency (identical `created_at`) the query returns the same
id-descending order whichever record is more severe, so severity is not a
tie-break in either direction. -/
theorem claim_C7_counterexample :
    ((load_findings "M7" none c7_stA.db).map (fun f => (f.id, getCol f.cols "severity"))
      = [(2, some (Val.i 1)), (1, some (Val.i 10))]) ∧
    ((load_findings "M7" none c7_stB.db).map (fun f => (f.id, getCol f.cols "severity"))
      = [(2, some (Val.i 10)), (1, some (Val.i 1))]) ∧
    ((load_findings "M7" none c7_stA.db).map (fun f => getCol f.cols "created_at")
      = [some (Val.s "2024-05-01T00:00:00"), some (Val.s "2024-05-01T00:00:00")]) ∧
    (c7_st7.db.findings.map (fun f => (f.id, getCol f.cols "severity"))
      = [(1, some (Val.i 7)), (2, none)]) := by
  decide

theorem claim_C7_witness :
    (load_findings "M7" none c7_stA.db).Pairwise (fun a b => b.id ≤ a.id) ∧
    (∀ f, f ∈ load_findings "M7" none c7_stA.db ↔
      f ∈ c7_stA.db.findings ∧ lf_pred "M7" none f = true) ∧
    (load_findings "M7" none c7_stA.db).length
      = (c7_stA.db.findings.filter (lf_pred "M7" none)).length :=
  claim_C7_theorem c7_stA.db "M7" none

/-- Claim C8 (amended): an image-save failure does not leave the record
written with an empty image field — it aborts the handler before the
record insert.  The model upsert that precedes the image saves persists,
but the findings table is untouched: the record is only written when every
image save succeeds. -/
theorem claim_C8_theorem {Img : Type} (blob : Img → Except Unit String) (now : String)
    (inp : RfInput Img) (st : AppState) (e : Unit)
    (hm : ¬(pystrip inp.rep_model = "")) (himg : inp.images.isEmpty = false)
    (hblob : inp.images.mapM blob = Except.error e) :
    rf_save blob now inp st
      = (upsert_model st (pystrip inp.rep_model) "" "" "", some RfErr.imageSaveFailed) ∧
    (rf_save blob now inp st).1.db.findings = st.db.findings := by
  have hred : rf_save blob now inp st
      = (upsert_model st (pystrip inp.rep_model) "" "" "", some RfErr.imageSaveFailed) := by
    unfold rf_save
    rw [if_neg hm, himg]
    rw [if_neg (by simp)]
    rw [hblob]
  refine ⟨hred, ?_⟩
  rw [hred]
  rfl

def c8_inp : RfInput Unit :=
  ⟨"M8", [()], "DIP-A", "1", "Day", "Electrical", "Polarity error", "broken",
   1, 2, 3, "Stock", "IPQC", "IPQC", "None", "MO-2", "rep"⟩

/-- A blob store whose save always fails (for instance PIL rejecting the
uploaded bytes). -/
def c8_blob (_ : Unit) : Except Unit String := Except.error ()

def c8_st : AppState := ⟨⟨[], [], 1⟩, none, []⟩

/-- Claim C8 (counterexample): with a failing image save, the save handler
raises after the model upsert and before the row insert: no record at all
is written — rather than the record being saved with an empty image
field. -/
theorem claim_C8_counterexample :
    (rf_save c8_blob "2024-05-01T00:00:00" c8_inp c8_st).2 = some RfErr.imageSaveFailed ∧
    (rf_save c8_blob "2024-05-01T00:00:00" c8_inp c8_st).1.db.findings = [] := by
  decide

theorem claim_C8_witness :
    (¬(pystrip c8_inp.rep_model = "") ∧ c8_inp.images.isEmpty = false
      ∧ c8_inp.images.mapM c8_blob = Except.error ()) ∧
    (rf_save c8_blob "2024-05-01T00:00:00" c8_inp c8_st
      = (upsert_model c8_st (pystrip c8_inp.rep_model) "" "" "", some RfErr.imageSaveFailed) ∧
    (rf_save c8_blob "2024-05-01T00:00:00" c8_inp c8_st).1.db.findings = c8_st.db.findings) :=
  ⟨⟨by decide, by decide, by rfl⟩,
   claim_C8_theorem c8_blob "2024-05-01T00:00:00" c8_inp c8_st ()
     (by decide) (by decide) (by rfl)⟩

end QCPortal
